import Mathlib

/-!
Shallow embedding of `src/main.py` of the dashboard-backend repository
(a FastAPI + MongoDB WhatsApp chat-logger), together with theorems
settling the frozen claims about it.

Modelling conventions:
* A MongoDB document of the `messages` collection becomes a `Message`
  structure; the collection itself is a `List Message` in insertion
  order (MongoDB natural order).
* `datetime` instants become `Nat` (only their ordering matters).
* The two documents of the `exclusion_filters` collection become a
  `FilterStore` with one `Option` per `filter_type` (`none` = the
  document is absent).
* MongoDB `find().sort(...)` and Python's stable `list.sort` are
  modelled as a stable insertion sort (`sortLe`) of the insertion-order
  list; `.skip(n)` is `List.drop`, and `.limit(n)` is `mongoLimit`
  (`limit(0)` means "no limit" in MongoDB).
* Python endpoints that can raise `HTTPException` become functions into
  `Except String _`; an `Except.error` result means the HTTP request
  failed before any write, so the store is unchanged.
-/

namespace Dashboard

/-- A document of the `messages` collection, as written by the
`/log` and `/log_message` endpoints of `src/main.py`. -/
structure Message where
  id : Nat
  phone : String
  client_name : Option String
  direction : String
  message : String
  media_url : Option String
  automation : Option String
  timestamp : Nat
  follow_up_needed : Bool
  handled_by : Option String
  notes : Option String
deriving Repr, DecidableEq

/-- The state of the `exclusion_filters` collection: at most one document
per `filter_type` (`exclude_exact_ids` carrying `ids`, and
`exclude_id_patterns` carrying `patterns`); `none` means the document
is absent. -/
structure FilterStore where
  exact_ids : Option (List String)
  id_patterns : Option (List String)
deriving Repr, DecidableEq

/-- The database state the claims are about: the `messages` collection in
insertion order, and the `exclusion_filters` collection. -/
structure DB where
  messages : List Message
  filters : FilterStore
deriving Repr, DecidableEq

/-- Stable insertion of `x` into `l`: `x` goes in front of the first
element `y` with `le x y`, and after every earlier element, so equal
keys keep their original relative order. -/
def insertLe {α : Type} (le : α → α → Bool) (x : α) : List α → List α
  | [] => [x]
  | y :: ys => if le x y then x :: y :: ys else y :: insertLe le x ys

/-- Stable sort by the boolean comparison `le`; models both a MongoDB
`sort(...)` over the collection's natural order and Python's stable
`list.sort`. -/
def sortLe {α : Type} (le : α → α → Bool) : List α → List α
  | [] => []
  | x :: xs => insertLe le x (sortLe le xs)

/-- `messages_col.find_one(sort=[("id", -1)])` — the largest stored id,
or `none` when the collection is empty. -/
def maxMessageId (msgs : List Message) : Option Nat :=
  (msgs.map (fun m => m.id)).max?

/-- `get_next_message_id` from `src/main.py`: `int(doc["id"]) + 1 if doc else 1`. -/
def get_next_message_id (msgs : List Message) : Nat :=
  match maxMessageId msgs with
  | some i => i + 1
  | none => 1

/-- `get_excluded_ids`: the `ids` field of the `exclude_exact_ids`
document, or `[]` when the document is absent. -/
def get_excluded_ids (fs : FilterStore) : List String :=
  fs.exact_ids.getD []

/-- `get_excluded_id_patterns`: the `patterns` field of the
`exclude_id_patterns` document, or `[]` when the document is absent. -/
def get_excluded_id_patterns (fs : FilterStore) : List String :=
  fs.id_patterns.getD []

/-- Python's `str.lower()`: lowercase the string character by
character. -/
def pyLower (s : String) : String :=
  String.mk (s.data.map Char.toLower)

/-- Python's `str.strip()`: drop leading and trailing whitespace. -/
def pyStrip (s : String) : String :=
  String.mk
    (((s.data.dropWhile Char.isWhitespace).reverse.dropWhile
        Char.isWhitespace).reverse)

/-- Lexicographic comparison of character lists by codepoint, the order
MongoDB uses for an ascending sort on a string field. -/
def charsLt : List Char → List Char → Bool
  | [], [] => false
  | [], _ :: _ => true
  | _ :: _, [] => false
  | a :: as, b :: bs =>
    if a.toNat < b.toNat then true
    else if b.toNat < a.toNat then false
    else charsLt as bs

/-- String comparison used by the `("phone", ASCENDING)` sort key. -/
def strLt (a b : String) : Bool := charsLt a.data b.data

/-- Python's substring test `needle in hay` on strings. -/
def strContains (hay needle : String) : Bool :=
  hay.data.tails.any (fun t => needle.data.isPrefixOf t)

/-- `should_exclude_id` from `src/main.py`: the decimal string of the id
is a member of the exact exclusions, or some truthy (non-empty) pattern
satisfies `pattern.lower() in id_str.lower()`. -/
def should_exclude_id (fs : FilterStore) (id_value : Nat) : Bool :=
  let id_str := toString id_value
  if (get_excluded_ids fs).contains id_str then true
  else (get_excluded_id_patterns fs).any
    (fun pattern =>
      pattern != "" && strContains (pyLower id_str) (pyLower pattern))

/-- `apply_id_filters`: keep the documents whose id is not excluded. -/
def apply_id_filters (fs : FilterStore) (docs : List Message) : List Message :=
  docs.filter (fun doc => !should_exclude_id fs doc.id)

/-- `normalize_direction` from `src/main.py`: empty input and
unrecognized values raise an `HTTPException(400)`; recognized values
map onto `"user"` or `"bot"`. -/
def normalize_direction (raw : String) : Except String String :=
  if raw = "" then Except.error "direction is required"
  else
    let r := pyLower (pyStrip raw)
    if r = "user" ∨ r = "incoming" ∨ r = "client" then Except.ok "user"
    else if r = "bot" ∨ r = "outgoing" ∨ r = "agent" then Except.ok "bot"
    else Except.error ("Invalid direction: " ++ r)

/-- The request body of `POST /log` (`LogMessage` pydantic model). -/
structure LogMessage where
  phone : String
  client_name : Option String := none
  direction : String
  message : String
  media_url : Option String := none
  automation : Option String := none
  timestamp : Option Nat := none
  follow_up_needed : Option Bool := some false
deriving Repr, DecidableEq

/-- The document literal built by `log_message` (`POST /log`), with the
assigned id as a parameter: `payload.timestamp or datetime.utcnow()`
falls back to the ingestion time `now`, and
`bool(payload.follow_up_needed)` sends `None` to `False`. -/
def build_log_doc (payload : LogMessage) (norm_direction : String)
    (now : Nat) (id : Nat) : Message :=
  { id := id
    phone := payload.phone
    client_name := payload.client_name
    direction := norm_direction
    message := payload.message
    media_url := payload.media_url
    automation := payload.automation
    timestamp := payload.timestamp.getD now
    follow_up_needed := payload.follow_up_needed.getD false
    handled_by := none
    notes := none }

/-- `log_message` (`POST /log`): normalize the direction (failure aborts
the request before anything is written), build the document with the
next id and the ingestion time `now` as the timestamp fallback, and
insert it. Returns the new state and the stored document. -/
def log_message (db : DB) (now : Nat) (payload : LogMessage) :
    Except String (DB × Message) :=
  match normalize_direction payload.direction with
  | Except.error e => Except.error e
  | Except.ok norm_direction =>
    let doc := build_log_doc payload norm_direction now
      (get_next_message_id db.messages)
    Except.ok ({ db with messages := db.messages ++ [doc] }, doc)

/-- The request body of `POST /log_message`
(`LogMessageFromDashboard` pydantic model). -/
structure LogMessageFromDashboard where
  phone : String
  message : String
  timestamp : String
  direction : Option String := some "dashboard"
  follow_up_needed : Option Bool := some false
  notes : Option String := some ""
  handled_by : Option String := some "Dashboard User"
deriving Repr, DecidableEq

/-- Python's `x or default` on an optional string: `None` and the empty
string are falsy. -/
def pyOrStr (x : Option String) (default : String) : String :=
  match x with
  | none => default
  | some s => if s = "" then default else s

/-- `log_message_from_dashboard` (`POST /log_message`). `parseIso`
abstracts `datetime.fromisoformat(payload.timestamp.replace("Z", "+00:00"))`:
`none` when that call raises, so the `except` branch substitutes the
ingestion time `now`. The client name is copied from the first stored
message of the same phone, if any. Always succeeds, returning the new
state and the assigned id. -/
def log_message_from_dashboard (parseIso : String → Option Nat) (db : DB)
    (now : Nat) (payload : LogMessageFromDashboard) : DB × Nat :=
  let ts := (parseIso payload.timestamp).getD now
  let client_name :=
    (db.messages.find? (fun m => m.phone == payload.phone)).bind
      (fun m => m.client_name)
  let doc : Message :=
    { id := get_next_message_id db.messages
      phone := payload.phone
      client_name := client_name
      direction := "dashboard"
      message := payload.message
      media_url := none
      automation := some "Dashboard"
      timestamp := ts
      follow_up_needed := payload.follow_up_needed.getD false
      handled_by := some (pyOrStr payload.handled_by "Dashboard User")
      notes := some (pyOrStr payload.notes "") }
  ({ db with messages := db.messages ++ [doc] }, doc.id)

/-- The sort key of `GET /contacts`:
`sort([("phone", ASCENDING), ("timestamp", DESCENDING)])`. -/
def contactsSortLe (a b : Message) : Bool :=
  strLt a.phone b.phone || (a.phone == b.phone && b.timestamp ≤ a.timestamp)

/-- A `ContactSummary` as returned by `GET /contacts`. -/
structure ContactSummary where
  phone : String
  client_name : Option String
  last_message : String
  last_time : Nat
  last_direction : String
  follow_up_open : Bool
deriving Repr, DecidableEq

/-- The `latest_per_phone` dict of `list_contacts`: first document seen
for each phone, in first-appearance (= dict insertion) order. -/
def latest_per_phone (docs : List Message) : List (String × Message) :=
  docs.foldl (fun acc m =>
    if acc.any (fun p => p.1 == m.phone) then acc else acc ++ [(m.phone, m)]) []

/-- The `followups` dict of `list_contacts`: `True` exactly when some
document of that phone has `follow_up_needed`. -/
def followups (docs : List Message) (phone : String) : Bool :=
  docs.any (fun m => m.phone == phone && m.follow_up_needed)

/-- `list_contacts` (`GET /contacts`): pull every message sorted by
(phone asc, timestamp desc), drop excluded ids, take the first (= most
recent) document per phone as the latest, OR `follow_up_needed` over
all of the phone's remaining documents, optionally keep only phones
with an open follow-up, and sort by latest time descending
(`list.sort` is stable). -/
def list_contacts (db : DB) (only_follow_up : Bool) : List ContactSummary :=
  let docs := apply_id_filters db.filters (sortLe contactsSortLe db.messages)
  let latest := latest_per_phone docs
  let contacts := (latest.filter
      (fun pm => !only_follow_up || followups docs pm.1)).map
    (fun pm =>
      { phone := pm.1
        client_name := pm.2.client_name
        last_message := pm.2.message
        last_time := pm.2.timestamp
        last_direction := pm.2.direction
        follow_up_open := followups docs pm.1 })
  sortLe (fun a b => b.last_time ≤ a.last_time) contacts

/-- MongoDB `.limit(n)`: `limit(0)` returns the whole remainder. -/
def mongoLimit {α : Type} (n : Nat) (xs : List α) : List α :=
  if n = 0 then xs else xs.take n

/-- `get_conversation` (`GET /conversation/{phone}`): the phone's
messages sorted by timestamp ascending, then `.skip(offset).limit(limit)`,
and only then the id-exclusion filter. -/
def get_conversation (db : DB) (phone : String) (limit : Nat) (offset : Nat) :
    List Message :=
  let cursor := mongoLimit limit
    ((sortLe (fun a b => a.timestamp ≤ b.timestamp)
        (db.messages.filter (fun m => m.phone == phone))).drop offset)
  apply_id_filters db.filters cursor

/-- The request body of `PATCH /message/{id}` (`UpdateMessage` pydantic
model): `none` means the field was not provided. -/
structure UpdateMessage where
  follow_up_needed : Option Bool := none
  handled_by : Option String := none
  notes : Option String := none
deriving Repr, DecidableEq

/-- The `$set` document built by `update_message`: each provided field
overwrites the stored one, everything else is untouched. -/
def applyUpdates (payload : UpdateMessage) (m : Message) : Message :=
  { m with
    follow_up_needed := payload.follow_up_needed.getD m.follow_up_needed
    handled_by := match payload.handled_by with
      | some h => some h
      | none => m.handled_by
    notes := match payload.notes with
      | some n => some n
      | none => m.notes }

/-- `find_one` then `update_one` on `{"id": msg_id}`: both act on the
first matching document, so the pair is modelled as one traversal that
patches the first match and returns it (an empty update document is a
no-op `$set`, which `applyUpdates` with an all-`none` payload also is). -/
def patchFirst (msg_id : Nat) (payload : UpdateMessage) :
    List Message → Option (List Message × Message)
  | [] => none
  | m :: rest =>
    if m.id == msg_id then
      some (applyUpdates payload m :: rest, applyUpdates payload m)
    else
      (patchFirst msg_id payload rest).map (fun r => (m :: r.1, r.2))

/-- `update_message` (`PATCH /message/{id}`): 404 when no document has
the id; otherwise write the provided fields and return the updated
document. -/
def update_message (db : DB) (msg_id : Nat) (payload : UpdateMessage) :
    Except String (DB × Message) :=
  match patchFirst msg_id payload db.messages with
  | none => Except.error "Message not found"
  | some (msgs, ret) => Except.ok ({ db with messages := msgs }, ret)

/-- `messages_col.delete_one({"id": msg_id})`: remove the first matching
document, reporting the deleted count (0 or 1). -/
def deleteFirst (msg_id : Nat) : List Message → List Message × Nat
  | [] => ([], 0)
  | m :: rest =>
    if m.id == msg_id then (rest, 1)
    else
      let r := deleteFirst msg_id rest
      (m :: r.1, r.2)

/-- `delete_message` (`DELETE /message/{id}`): 404 when the deleted
count is 0, otherwise the new state and the count. -/
def delete_message (db : DB) (msg_id : Nat) : Except String (DB × Nat) :=
  let r := deleteFirst msg_id db.messages
  if r.2 = 0 then Except.error "Message not found"
  else Except.ok ({ db with messages := r.1 }, r.2)

/-- The id-cleaning comprehension of `update_exclusion_filters`:
`list(set([str(v).strip() for v in ids if str(v).strip()]))` — keep the
entries whose stripped form is non-empty, strip them, deduplicate. -/
def cleanIds (ids : List String) : List String :=
  ((ids.filter (fun s => pyStrip s != "")).map pyStrip).dedup

/-- The pattern-cleaning comprehension:
`list(set([p.strip() for p in patterns if p and p.strip()]))`. -/
def cleanPatterns (patterns : List String) : List String :=
  ((patterns.filter (fun p => p != "" && pyStrip p != "")).map pyStrip).dedup

/-- `update_exclusion_filters` (`POST /filters/exclusions`): clean both
input lists and upsert each filter document with `$set`, replacing the
stored `ids` and `patterns` wholesale. Returns the new state and the
cleaned lists echoed in the response. -/
def update_exclusion_filters (db : DB) (exclude_ids : List String)
    (exclude_id_patterns : List String) : DB × (List String × List String) :=
  let clean_ids := cleanIds exclude_ids
  let clean_patterns := cleanPatterns exclude_id_patterns
  ({ db with filters := { exact_ids := some clean_ids
                          id_patterns := some clean_patterns } },
   (clean_ids, clean_patterns))

/-!
## Concurrency model for the id race

`log_message` performs two separate MongoDB operations: the
`find_one(sort=[("id", -1)])` inside `get_next_message_id`, and the
`insert_one`. Each operation is individually atomic, but nothing
serializes the pair, so two concurrent requests may interleave them.
The model below runs two in-flight `POST /log` appends at exactly that
granularity; the unique index `messages_col.create_index([("id",
ASCENDING)], unique=True)` makes an insert of an already-present id fail
with a duplicate-key error instead of storing the document.
-/

/-- One in-flight `POST /log` append: `localId` is the id its
`get_next_message_id` call computed (if it already ran), `dupKey`
records that its `insert_one` hit the unique index on `id`. -/
structure Writer where
  localId : Option Nat
  dupKey : Bool
deriving Repr, DecidableEq

/-- Shared store plus the two in-flight writers. -/
structure RaceState where
  store : List Message
  writerA : Writer
  writerB : Writer
deriving Repr, DecidableEq

/-- The four atomic database operations of two concurrent appends. -/
inductive RaceOp where
  | readA | readB | insertA | insertB
deriving Repr, DecidableEq

/-- `insert_one` of the document `mk localId`: a duplicate id violates
the unique index, failing the insert (and with it the request — the
code has no retry), otherwise the document is appended. -/
def insertDoc (mk : Nat → Message) (w : Writer) (store : List Message) :
    Writer × List Message :=
  match w.localId with
  | none => (w, store)
  | some k =>
    if store.any (fun m => m.id == k) then ({ w with dupKey := true }, store)
    else (w, store ++ [mk k])

/-- One atomic step of the interleaved execution. -/
def raceStep (mkA mkB : Nat → Message) (s : RaceState) : RaceOp → RaceState
  | RaceOp.readA =>
    { s with writerA :=
        { s.writerA with localId := some (get_next_message_id s.store) } }
  | RaceOp.readB =>
    { s with writerB :=
        { s.writerB with localId := some (get_next_message_id s.store) } }
  | RaceOp.insertA =>
    let r := insertDoc mkA s.writerA s.store
    { s with writerA := r.1, store := r.2 }
  | RaceOp.insertB =>
    let r := insertDoc mkB s.writerB s.store
    { s with writerB := r.1, store := r.2 }

/-- Run a schedule of atomic operations from a given state. -/
def raceRun (mkA mkB : Nat → Message) (s0 : RaceState) (ops : List RaceOp) :
    RaceState :=
  ops.foldl (raceStep mkA mkB) s0

/-- Two concurrent appends starting from an empty log. -/
def raceInit : RaceState :=
  { store := []
    writerA := { localId := none, dupKey := false }
    writerB := { localId := none, dupKey := false } }

/-- Writer A's request body in the race scenario. -/
def racePayloadA : LogMessage :=
  { phone := "+1555", direction := "incoming", message := "hi" }

/-- Writer B's request body in the race scenario. -/
def racePayloadB : LogMessage :=
  { phone := "+1666", direction := "outgoing", message := "yo" }

/-- Writer A's document builder, as `log_message` would build it. -/
def raceMkA : Nat → Message := build_log_doc racePayloadA "user" 10

/-- Writer B's document builder, as `log_message` would build it. -/
def raceMkB : Nat → Message := build_log_doc racePayloadB "bot" 11

/-!
## Spec-side definitions

These two definitions follow the words of the specification, not the
code, and exist to be compared against `get_conversation`.
-/

/-- The conversation view as the claim words it: first remove excluded
ids from the phone's messages ordered oldest-first, then apply offset
and limit to the filtered sequence. -/
def conversation_filter_then_paginate (db : DB) (phone : String)
    (limit offset : Nat) : List Message :=
  mongoLimit limit
    ((apply_id_filters db.filters
        (sortLe (fun a b => a.timestamp ≤ b.timestamp)
          (db.messages.filter (fun m => m.phone == phone)))).drop offset)

/-- The conversation view with the opposite pipeline order: offset and
limit applied to the phone's oldest-first messages, the exclusion
filter applied afterwards. -/
def conversation_paginate_then_filter (db : DB) (phone : String)
    (limit offset : Nat) : List Message :=
  apply_id_filters db.filters
    (mongoLimit limit
      ((sortLe (fun a b => a.timestamp ≤ b.timestamp)
          (db.messages.filter (fun m => m.phone == phone))).drop offset))

/-!
## Concrete states used by witnesses and counterexamples
-/

/-- A filter store excluding exactly the id `1`. -/
def exFs : FilterStore := { exact_ids := some ["1"], id_patterns := none }

/-- An empty filter store (both documents absent). -/
def noFs : FilterStore := { exact_ids := none, id_patterns := none }

/-- A stored message with id 1. -/
def exM1 : Message :=
  { id := 1
    phone := "p"
    client_name := none
    direction := "user"
    message := "a"
    media_url := none
    automation := none
    timestamp := 1
    follow_up_needed := false
    handled_by := none
    notes := none }

/-- A stored message with id 2. -/
def exM2 : Message := { exM1 with id := 2, message := "b", timestamp := 2 }

/-- A stored message with id 3. -/
def exM3 : Message := { exM1 with id := 3, message := "c", timestamp := 3 }

/-- Two messages of phone `"p"`, the first excluded by `exFs`. -/
def exDb : DB := { messages := [exM1, exM2], filters := exFs }

/-- The three-message scenario of the follow-up claim: timestamps
1 < 2 < 3 with `follow_up_needed` false, true, false; no filters. -/
def fuDb : DB :=
  { messages := [exM1, { exM2 with follow_up_needed := true }, exM3]
    filters := noFs }

/-- Messages with the non-contiguous id set {1, 5}. -/
def gapDb : DB :=
  { messages := [exM1, { exM1 with id := 5, timestamp := 5 }], filters := noFs }

/-- A contiguous two-message log, ids {1, 2}. -/
def contiguousDb : DB := { messages := [exM1, exM2], filters := noFs }

/-!
## Helper lemmas
-/

/-- Inserting with `insertLe` permutes to consing. -/
theorem perm_insertLe {α : Type} (le : α → α → Bool) (x : α) (l : List α) :
    (insertLe le x l).Perm (x :: l) := by
  induction l with
  | nil => exact List.Perm.refl _
  | cons y ys ih =>
    simp only [insertLe]
    split
    · exact List.Perm.refl _
    · exact (ih.cons y).trans (List.Perm.swap x y ys)

/-- `sortLe` returns a permutation of its input. -/
theorem perm_sortLe {α : Type} (le : α → α → Bool) (l : List α) :
    (sortLe le l).Perm l := by
  induction l with
  | nil => exact List.Perm.refl _
  | cons x xs ih => exact (perm_insertLe le x (sortLe le xs)).trans (ih.cons x)

/-- `List.any` is invariant under permutation. -/
theorem any_eq_of_perm {α : Type} {l₁ l₂ : List α} (h : l₁.Perm l₂)
    (p : α → Bool) : l₁.any p = l₂.any p := by
  cases hb : l₂.any p with
  | true =>
    rw [List.any_eq_true] at hb ⊢
    obtain ⟨x, hx, hp⟩ := hb
    exact ⟨x, h.mem_iff.mpr hx, hp⟩
  | false =>
    rw [List.any_eq_false] at hb ⊢
    intro x hx
    exact hb x (h.mem_iff.mp hx)

/-- Fold invariant of the `latest_per_phone` dict: every entry either
was already in the accumulator or pairs a phone with one of the
traversed documents of exactly that phone. -/
theorem latest_per_phone_aux (l : List Message) :
    ∀ (acc : List (String × Message)),
      ∀ pm ∈ l.foldl
        (fun acc m =>
          if acc.any (fun p => p.1 == m.phone) then acc
          else acc ++ [(m.phone, m)]) acc,
        pm ∈ acc ∨ (pm.1 = pm.2.phone ∧ pm.2 ∈ l) := by
  induction l with
  | nil => exact fun acc pm h => Or.inl h
  | cons m ms ih =>
    intro acc pm h
    simp only [List.foldl_cons] at h
    rcases ih _ pm h with hacc | ⟨h1, h2⟩
    · split at hacc
      · exact Or.inl hacc
      · rcases List.mem_append.mp hacc with h' | h'
        · exact Or.inl h'
        · have hpm : pm = (m.phone, m) := by simpa using h'
          subst hpm
          exact Or.inr ⟨rfl, List.mem_cons_self m ms⟩
    · exact Or.inr ⟨h1, List.mem_cons_of_mem m h2⟩

/-- Every entry of `latest_per_phone docs` pairs a phone with one of the
documents of exactly that phone. -/
theorem latest_per_phone_mem {docs : List Message} :
    ∀ pm ∈ latest_per_phone docs, pm.1 = pm.2.phone ∧ pm.2 ∈ docs := by
  intro pm h
  simp only [latest_per_phone] at h
  rcases latest_per_phone_aux docs [] pm h with h' | h'
  · exact absurd h' (List.not_mem_nil pm)
  · exact h'

/-!
## Claim theorems
-/

/-- Claim C2: for every contact summary produced by `GET /contacts`,
`follow_up_open` is the OR of `follow_up_needed` over all of that
phone's non-excluded messages; and in the three-message scenario
(timestamps 1 < 2 < 3, flags false/true/false) the single summary has
`follow_up_open = true` even though the latest message (timestamp 3)
has `follow_up_needed = false`. -/
theorem C2_follow_up_open_is_or :
    (∀ (db : DB) (ofu : Bool) (c : ContactSummary), c ∈ list_contacts db ofu →
      c.follow_up_open
        = (apply_id_filters db.filters db.messages).any
            (fun m => m.phone == c.phone && m.follow_up_needed)) ∧
    ((list_contacts fuDb false).map
        (fun c => (c.phone, c.follow_up_open, c.last_time)) = [("p", true, 3)] ∧
      exM3.follow_up_needed = false ∧ exM3.timestamp = 3 ∧ exM3 ∈ fuDb.messages) := by
  constructor
  · intro db ofu c hc
    simp only [list_contacts] at hc
    have hc' := (perm_sortLe _ _).mem_iff.mp hc
    obtain ⟨pm, hpm, rfl⟩ := List.mem_map.mp hc'
    show followups _ pm.1
      = (apply_id_filters db.filters db.messages).any
          (fun m => m.phone == pm.1 && m.follow_up_needed)
    simp only [followups, apply_id_filters]
    exact any_eq_of_perm
      (List.Perm.filter _ (perm_sortLe contactsSortLe db.messages)) _
  · exact ⟨by decide, rfl, rfl, by decide⟩

/-- Claim C2 witness: the general part of `C2_follow_up_open_is_or`
applied to the concrete three-message store. -/
theorem C2_follow_up_open_is_or_witness :
    (⟨"p", none, "c", 3, "user", true⟩ : ContactSummary).follow_up_open
      = (apply_id_filters fuDb.filters fuDb.messages).any
          (fun m =>
            m.phone == (⟨"p", none, "c", 3, "user", true⟩ : ContactSummary).phone
              && m.follow_up_needed) :=
  C2_follow_up_open_is_or.1 fuDb false ⟨"p", none, "c", 3, "user", true⟩
    (by decide)

/-- Claim C4: a message whose id the filter store excludes never appears
in `GET /conversation/{phone}` output, and every contact summary of
`GET /contacts` is derived from a non-excluded stored message of that
phone (so excluded messages neither supply the latest message nor
contribute an entry). -/
theorem C4_excluded_never_appears :
    (∀ (db : DB) (phone : String) (limit offset : Nat) (m : Message),
        m ∈ get_conversation db phone limit offset →
        should_exclude_id db.filters m.id = false) ∧
    (∀ (db : DB) (ofu : Bool) (c : ContactSummary), c ∈ list_contacts db ofu →
        ∃ m ∈ db.messages, should_exclude_id db.filters m.id = false ∧
          c.phone = m.phone ∧ c.client_name = m.client_name ∧
          c.last_message = m.message ∧ c.last_time = m.timestamp ∧
          c.last_direction = m.direction) := by
  constructor
  · intro db phone limit offset m hm
    simp only [get_conversation, apply_id_filters] at hm
    have h := (List.mem_filter.mp hm).2
    simpa using h
  · intro db ofu c hc
    simp only [list_contacts] at hc
    have hc' := (perm_sortLe _ _).mem_iff.mp hc
    obtain ⟨pm, hpm, rfl⟩ := List.mem_map.mp hc'
    have hlat := (List.mem_filter.mp hpm).1
    obtain ⟨hfst, hsnd⟩ := latest_per_phone_mem pm hlat
    simp only [apply_id_filters] at hsnd
    obtain ⟨hmem, hq⟩ := List.mem_filter.mp hsnd
    refine ⟨pm.2, (perm_sortLe _ _).mem_iff.mp hmem, by simpa using hq,
      hfst, rfl, rfl, rfl, rfl⟩

/-- Claim C4 witness: `C4_excluded_never_appears` applied to a concrete
store where id 1 is excluded and the conversation returns message 2. -/
theorem C4_excluded_never_appears_witness :
    should_exclude_id exDb.filters exM2.id = false :=
  C4_excluded_never_appears.1 exDb "p" 5 0 exM2 (by decide)

/-- Claim C5: `should_exclude_id` returns true exactly when the decimal
string of the id is a member of the stored exact ids, or
case-insensitively contains some non-empty stored pattern as a
substring; with no filter documents stored it is false for every id. -/
theorem C5_should_exclude_iff :
    (∀ (fs : FilterStore) (id_value : Nat),
      should_exclude_id fs id_value = true ↔
        (toString id_value ∈ get_excluded_ids fs ∨
          ∃ p ∈ get_excluded_id_patterns fs, p ≠ "" ∧
            strContains (pyLower (toString id_value)) (pyLower p) = true)) ∧
    (∀ id_value : Nat, should_exclude_id noFs id_value = false) := by
  constructor
  · intro fs id_value
    simp only [should_exclude_id]
    split
    · next h =>
      simp only [true_iff]
      exact Or.inl (by simpa using h)
    · next h =>
      constructor
      · intro ha
        obtain ⟨p, hp, hcond⟩ := List.any_eq_true.mp ha
        rw [Bool.and_eq_true] at hcond
        exact Or.inr ⟨p, hp, bne_iff_ne.mp hcond.1, hcond.2⟩
      · rintro (hmem | ⟨p, hp, hne, hcont⟩)
        · exact absurd (by simpa using hmem : (get_excluded_ids fs).contains
            (toString id_value) = true) h
        · exact List.any_eq_true.mpr
            ⟨p, hp, by rw [Bool.and_eq_true]; exact ⟨bne_iff_ne.mpr hne, hcont⟩⟩
  · intro id_value
    rfl

/-- Membership through `mongoLimit`. -/
theorem mem_mongoLimit {α : Type} {n : Nat} {l : List α} {x : α}
    (h : x ∈ mongoLimit n l) : x ∈ l := by
  simp only [mongoLimit] at h
  split at h
  · exact h
  · exact List.mem_of_mem_take h

/-- Claim C3 counterexample: with id 1 excluded and two messages of
phone `"p"`, `GET /conversation/p?limit=1&offset=0` returns the empty
list, while the claimed filter-then-paginate semantics returns message
2 — so pagination does not apply after filtering. -/
theorem C3_pagination_counterexample :
    get_conversation exDb "p" 1 0 = [] ∧
    conversation_filter_then_paginate exDb "p" 1 0 = [exM2] ∧
    get_conversation exDb "p" 1 0
      ≠ conversation_filter_then_paginate exDb "p" 1 0 := by
  refine ⟨by decide, by decide, by decide⟩

/-- Claim C3 amended: `GET /conversation/{phone}` orders the phone's
messages oldest-first, applies offset and limit, and only then removes
excluded ids (pagination applies before filtering); every returned
message still belongs to the phone, is never excluded, and is a stored
message. -/
theorem C3_pagination_before_filtering :
    ∀ (db : DB) (phone : String) (limit offset : Nat),
      get_conversation db phone limit offset
        = conversation_paginate_then_filter db phone limit offset ∧
      (∀ m ∈ get_conversation db phone limit offset,
        m.phone = phone ∧ should_exclude_id db.filters m.id = false ∧
          m ∈ db.messages) := by
  intro db phone limit offset
  refine ⟨rfl, ?_⟩
  intro m hm
  simp only [get_conversation, apply_id_filters] at hm
  obtain ⟨hmem, hq⟩ := List.mem_filter.mp hm
  have h1 := List.mem_of_mem_drop (mem_mongoLimit hmem)
  have h2 := (perm_sortLe _ _).mem_iff.mp h1
  obtain ⟨h3, h4⟩ := List.mem_filter.mp h2
  exact ⟨beq_iff_eq.mp h4, by simpa using hq, h3⟩

/-- Claim C3 witness: the amended theorem applied to the concrete store
`exDb` at the message the conversation view returns. -/
theorem C3_pagination_before_filtering_witness :
    exM2.phone = "p" ∧ should_exclude_id exDb.filters exM2.id = false ∧
      exM2 ∈ exDb.messages :=
  (C3_pagination_before_filtering exDb "p" 2 0).2 exM2 (by decide)

/-- Claim C6: `POST /filters/exclusions` replaces both stored sets
wholesale — the result does not depend on the previous filter state —
and each stored set is the input after stripping whitespace, dropping
entries that strip to empty, and deduplicating. -/
theorem C6_filters_full_replace :
    ∀ (db : DB) (ids pats : List String),
      (∀ s, s ∈ get_excluded_ids (update_exclusion_filters db ids pats).1.filters
        ↔ ((∃ y ∈ ids, pyStrip y = s) ∧ s ≠ "")) ∧
      (∀ s, s ∈ get_excluded_id_patterns
          (update_exclusion_filters db ids pats).1.filters
        ↔ ((∃ y ∈ pats, pyStrip y = s) ∧ s ≠ "")) ∧
      (get_excluded_ids (update_exclusion_filters db ids pats).1.filters).Nodup ∧
      (get_excluded_id_patterns
        (update_exclusion_filters db ids pats).1.filters).Nodup ∧
      (∀ db₂ : DB, (update_exclusion_filters db₂ ids pats).1.filters
        = (update_exclusion_filters db ids pats).1.filters) := by
  intro db ids pats
  refine ⟨?_, ?_, List.nodup_dedup _, List.nodup_dedup _, fun db₂ => rfl⟩
  · intro s
    show s ∈ cleanIds ids ↔ _
    simp only [cleanIds, List.mem_dedup, List.mem_map, List.mem_filter]
    constructor
    · rintro ⟨y, ⟨hy, hne⟩, rfl⟩
      exact ⟨⟨y, hy, rfl⟩, by simpa using hne⟩
    · rintro ⟨⟨y, hy, rfl⟩, hs⟩
      exact ⟨y, ⟨hy, by simpa using hs⟩, rfl⟩
  · intro s
    show s ∈ cleanPatterns pats ↔ _
    simp only [cleanPatterns, List.mem_dedup, List.mem_map, List.mem_filter]
    constructor
    · rintro ⟨y, ⟨hy, hne⟩, rfl⟩
      rw [Bool.and_eq_true] at hne
      exact ⟨⟨y, hy, rfl⟩, by simpa using hne.2⟩
    · rintro ⟨⟨y, hy, rfl⟩, hs⟩
      have hy0 : y ≠ "" := by
        rintro rfl
        exact hs rfl
      refine ⟨y, ⟨hy, ?_⟩, rfl⟩
      rw [Bool.and_eq_true]
      exact ⟨bne_iff_ne.mpr hy0, by simpa using hs⟩

/-- Results of `normalize_direction` are only ever `"user"` or
`"bot"`. -/
theorem normalize_direction_ok {raw d : String}
    (h : normalize_direction raw = Except.ok d) :
    d = "user" ∨ d = "bot" := by
  simp only [normalize_direction] at h
  split at h
  · exact Except.noConfusion h
  · split at h
    · injection h with h2
      exact Or.inl h2.symm
    · split at h
      · injection h with h2
        exact Or.inr h2.symm
      · exact Except.noConfusion h

/-- Claim C7: a message stored by `POST /log` has direction exactly
`"user"` or `"bot"` and is the only change to the log (an input
direction of `"incoming"` normalizes to `"user"`); a direction that
fails normalization fails the request with the validation error, and
nothing is stored. -/
theorem C7_direction_normalized :
    (∀ (db : DB) (now : Nat) (payload : LogMessage) (db' : DB) (doc : Message),
        log_message db now payload = Except.ok (db', doc) →
          (doc.direction = "user" ∨ doc.direction = "bot") ∧
          db'.messages = db.messages ++ [doc] ∧ db'.filters = db.filters) ∧
    (∀ (db : DB) (now : Nat) (payload : LogMessage) (e : String),
        normalize_direction payload.direction = Except.error e →
          log_message db now payload = Except.error e) ∧
    normalize_direction "incoming" = Except.ok "user" ∧
    normalize_direction "sideways"
      = Except.error "Invalid direction: sideways" := by
  refine ⟨?_, ?_, rfl, rfl⟩
  · intro db now payload db' doc h
    cases hn : normalize_direction payload.direction with
    | error e =>
      simp only [log_message, hn] at h
      exact Except.noConfusion h
    | ok d =>
      simp only [log_message, hn, Except.ok.injEq, Prod.mk.injEq] at h
      obtain ⟨h1, h2⟩ := h
      subst h2
      subst h1
      exact ⟨normalize_direction_ok hn, rfl, rfl⟩
  · intro db now payload e he
    simp only [log_message, he]

/-- The document `POST /log` stores in the concrete witness run. -/
def c7Doc : Message := build_log_doc racePayloadA "user" 9 3

/-- The state after the concrete witness run of `POST /log`. -/
def c7Db : DB := { messages := exDb.messages ++ [c7Doc], filters := exDb.filters }

/-- Claim C7 witness: `C7_direction_normalized` applied to a concrete
request whose direction `"incoming"` is stored as `"user"`. -/
theorem C7_direction_normalized_witness :
    (c7Doc.direction = "user" ∨ c7Doc.direction = "bot") ∧
    c7Db.messages = exDb.messages ++ [c7Doc] ∧ c7Db.filters = exDb.filters :=
  C7_direction_normalized.1 exDb 9 racePayloadA c7Db c7Doc rfl

/-- A successful `patchFirst` splits the list around the first document
with the id: everything before it keeps a different id, the match is
rewritten by `applyUpdates`, everything else is untouched. -/
theorem patchFirst_ok {msg_id : Nat} {payload : UpdateMessage}
    {l l' : List Message} {ret : Message}
    (h : patchFirst msg_id payload l = some (l', ret)) :
    ∃ pre m post, l = pre ++ m :: post ∧ (∀ x ∈ pre, x.id ≠ msg_id) ∧
      m.id = msg_id ∧ ret = applyUpdates payload m ∧
      l' = pre ++ applyUpdates payload m :: post := by
  induction l generalizing l' ret with
  | nil => simp [patchFirst] at h
  | cons x xs ih =>
    simp only [patchFirst] at h
    split at h
    · next hx =>
      simp only [Option.some.injEq, Prod.mk.injEq] at h
      obtain ⟨h1, h2⟩ := h
      exact ⟨[], x, xs, rfl, by simp, beq_iff_eq.mp hx, h2.symm, h1.symm⟩
    · next hx =>
      rw [Option.map_eq_some'] at h
      obtain ⟨⟨xs', ret'⟩, hrec, hmk⟩ := h
      simp only [Prod.mk.injEq] at hmk
      obtain ⟨h1, h2⟩ := hmk
      obtain ⟨pre, m, post, e1, e2, e3, e4, e5⟩ := ih hrec
      refine ⟨x :: pre, m, post, by simp [e1], ?_, e3, by rw [← h2, e4],
        by rw [← h1, e5]; rfl⟩
      intro y hy
      rcases List.mem_cons.mp hy with hyx | hy'
      · subst hyx
        exact fun hc => hx (beq_iff_eq.mpr hc)
      · exact e2 y hy'

/-- If no document has the id, `patchFirst` finds nothing. -/
theorem patchFirst_none {msg_id : Nat} {payload : UpdateMessage}
    {l : List Message} (h : ∀ m ∈ l, m.id ≠ msg_id) :
    patchFirst msg_id payload l = none := by
  induction l with
  | nil => rfl
  | cons x xs ih =>
    simp only [patchFirst]
    rw [if_neg, ih (fun m hm => h m (List.mem_cons_of_mem x hm))]
    · rfl
    · simp only [beq_iff_eq]
      exact h x (List.mem_cons_self x xs)

/-- Claim C8: `PATCH /message/{id}` rewrites exactly the first stored
message with that id using precisely the provided fields (every other
message, and every unprovided field, is unchanged — the update is
all-or-nothing by construction); an unknown id yields the not-found
error; and `applyUpdates` changes exactly the provided fields of a
message. -/
theorem C8_patch_exact_fields :
    (∀ (db : DB) (msg_id : Nat) (payload : UpdateMessage) (db' : DB)
        (ret : Message),
       update_message db msg_id payload = Except.ok (db', ret) →
       ∃ pre m post,
         db.messages = pre ++ m :: post ∧
         (∀ x ∈ pre, x.id ≠ msg_id) ∧
         m.id = msg_id ∧
         ret = applyUpdates payload m ∧
         db'.messages = pre ++ applyUpdates payload m :: post ∧
         db'.filters = db.filters) ∧
    (∀ (db : DB) (msg_id : Nat) (payload : UpdateMessage),
       (∀ m ∈ db.messages, m.id ≠ msg_id) →
       update_message db msg_id payload
         = Except.error "Message not found") ∧
    (∀ (payload : UpdateMessage) (m : Message),
       (applyUpdates payload m).id = m.id ∧
       (applyUpdates payload m).phone = m.phone ∧
       (applyUpdates payload m).client_name = m.client_name ∧
       (applyUpdates payload m).direction = m.direction ∧
       (applyUpdates payload m).message = m.message ∧
       (applyUpdates payload m).media_url = m.media_url ∧
       (applyUpdates payload m).automation = m.automation ∧
       (applyUpdates payload m).timestamp = m.timestamp ∧
       (applyUpdates payload m).follow_up_needed
         = payload.follow_up_needed.getD m.follow_up_needed ∧
       (applyUpdates payload m).handled_by
         = (payload.handled_by.map some).getD m.handled_by ∧
       (applyUpdates payload m).notes
         = (payload.notes.map some).getD m.notes) := by
  refine ⟨?_, ?_, ?_⟩
  · intro db msg_id payload db' ret h
    cases hp : patchFirst msg_id payload db.messages with
    | none =>
      simp only [update_message, hp] at h
      exact Except.noConfusion h
    | some r =>
      simp only [update_message, hp, Except.ok.injEq, Prod.mk.injEq] at h
      obtain ⟨h1, h2⟩ := h
      obtain ⟨pre, m, post, e1, e2, e3, e4, e5⟩ := patchFirst_ok hp
      subst h2
      exact ⟨pre, m, post, e1, e2, e3, e4, by rw [← h1]; exact e5,
        by rw [← h1]⟩
  · intro db msg_id payload h
    simp only [update_message, patchFirst_none h]
  · intro payload m
    refine ⟨rfl, rfl, rfl, rfl, rfl, rfl, rfl, rfl, rfl, ?_, ?_⟩
    · cases hh : payload.handled_by <;> simp [applyUpdates, hh]
    · cases hn : payload.notes <;> simp [applyUpdates, hn]

/-- The patch payload of the concrete witness run. -/
def c8Pay : UpdateMessage := { follow_up_needed := some true }

/-- The updated message of the concrete witness run. -/
def c8Ret : Message := { exM2 with follow_up_needed := true }

/-- The state after the concrete witness run of the patch. -/
def c8Db : DB := { messages := [exM1, c8Ret], filters := exFs }

/-- Claim C8 witness: `C8_patch_exact_fields` applied to a concrete
patch of message 2 and to a concrete unknown id. -/
theorem C8_patch_exact_fields_witness :
    (∃ pre m post,
       exDb.messages = pre ++ m :: post ∧ (∀ x ∈ pre, x.id ≠ 2) ∧
       m.id = 2 ∧ c8Ret = applyUpdates c8Pay m ∧
       c8Db.messages = pre ++ applyUpdates c8Pay m :: post ∧
       c8Db.filters = exDb.filters) ∧
    update_message exDb 99 ({} : UpdateMessage)
      = Except.error "Message not found" :=
  ⟨C8_patch_exact_fields.1 exDb 2 c8Pay c8Db c8Ret rfl,
   C8_patch_exact_fields.2.1 exDb 99 ({} : UpdateMessage) (by decide)⟩

/-- Claim C9: when the ISO-timestamp parse of a dashboard append fails,
the message is stored with the ingestion time as its timestamp and the
request still succeeds (the function returns the stored id, the log
grows by the one message, and the filters are untouched). -/
theorem C9_timestamp_fallback :
    ∀ (parseIso : String → Option Nat) (db : DB) (now : Nat)
      (payload : LogMessageFromDashboard),
      parseIso payload.timestamp = none →
      ∃ doc : Message,
        (log_message_from_dashboard parseIso db now payload).1.messages
          = db.messages ++ [doc] ∧
        doc.timestamp = now ∧
        (log_message_from_dashboard parseIso db now payload).1.filters
          = db.filters ∧
        (log_message_from_dashboard parseIso db now payload).2 = doc.id := by
  intro parseIso db now payload h
  refine ⟨_, rfl, ?_, rfl, rfl⟩
  show (parseIso payload.timestamp).getD now = now
  rw [h]
  rfl

/-- The dashboard payload of the concrete witness run, with an
unparseable timestamp string. -/
def c9Payload : LogMessageFromDashboard :=
  { phone := "p", message := "x", timestamp := "not-a-date" }

/-- Claim C9 witness: `C9_timestamp_fallback` at a parse function that
fails on the concrete payload. -/
theorem C9_timestamp_fallback_witness :
    ∃ doc : Message,
      (log_message_from_dashboard (fun _ => none) exDb 42 c9Payload).1.messages
        = exDb.messages ++ [doc] ∧
      doc.timestamp = 42 ∧
      (log_message_from_dashboard (fun _ => none) exDb 42 c9Payload).1.filters
        = exDb.filters ∧
      (log_message_from_dashboard (fun _ => none) exDb 42 c9Payload).2
        = doc.id :=
  C9_timestamp_fallback (fun _ => none) exDb 42 c9Payload rfl

/-- A successful `deleteFirst` splits the list around the first
document with the id and removes exactly that document. -/
theorem deleteFirst_ok {msg_id : Nat} {l l' : List Message} {c : Nat}
    (h : deleteFirst msg_id l = (l', c)) (hc : c ≠ 0) :
    ∃ pre m post, l = pre ++ m :: post ∧ (∀ x ∈ pre, x.id ≠ msg_id) ∧
      m.id = msg_id ∧ l' = pre ++ post := by
  induction l generalizing l' c with
  | nil =>
    simp only [deleteFirst, Prod.mk.injEq] at h
    exact absurd h.2.symm hc
  | cons x xs ih =>
    simp only [deleteFirst] at h
    split at h
    · next hx =>
      simp only [Prod.mk.injEq] at h
      obtain ⟨h1, h2⟩ := h
      exact ⟨[], x, xs, rfl, by simp, beq_iff_eq.mp hx, h1.symm⟩
    · next hx =>
      simp only [Prod.mk.injEq] at h
      obtain ⟨h1, h2⟩ := h
      obtain ⟨pre, m, post, e1, e2, e3, e4⟩ :=
        ih rfl (by rw [h2]; exact hc)
      refine ⟨x :: pre, m, post, by simp [e1], ?_, e3,
        by rw [← h1, e4]; rfl⟩
      intro y hy
      rcases List.mem_cons.mp hy with hyx | hy'
      · subst hyx
        exact fun hcon => hx (beq_iff_eq.mpr hcon)
      · exact e2 y hy'

/-- Claim C10 counterexample: in a store holding ids {1, 5}, deleting
the message with the largest id (5) succeeds, but the next append is
assigned id 2, not the deleted id 5 — so "the next append reuses that
deleted id" fails for non-contiguous id sets. -/
theorem C10_reuse_counterexample :
    delete_message gapDb 5
      = Except.ok ({ messages := [exM1], filters := noFs }, 1) ∧
    get_next_message_id [exM1] = 2 ∧
    get_next_message_id [exM1] ≠ 5 :=
  ⟨rfl, rfl, by decide⟩

/-- Claim C10 amended: an append is assigned one plus the largest
stored id (1 on an empty log); after deleting the message holding the
largest id, the next assigned id is at most the deleted id — equal to
it when the log was contiguous, as in the concrete run below, so ids
are reused and are not unique across the log's lifetime. -/
theorem C10_next_id_amended :
    (∀ (msgs : List Message) (k : Nat),
        (∃ m ∈ msgs, m.id = k) → (∀ m ∈ msgs, m.id ≤ k) →
        get_next_message_id msgs = k + 1) ∧
    get_next_message_id [] = 1 ∧
    (∀ (db db' : DB) (c k : Nat),
        (db.messages.map (fun m => m.id)).Nodup →
        0 < k →
        (∀ m ∈ db.messages, m.id ≤ k) →
        delete_message db k = Except.ok (db', c) →
        get_next_message_id db'.messages ≤ k) ∧
    (delete_message contiguousDb 2
        = Except.ok ({ messages := [exM1], filters := noFs }, 1) ∧
      get_next_message_id [exM1] = 2 ∧
      (∃ db'' doc,
        log_message { messages := [exM1], filters := noFs } 9 racePayloadA
          = Except.ok (db'', doc) ∧ doc.id = 2)) := by
  refine ⟨?_, rfl, ?_, rfl, rfl, ⟨_, _, rfl, rfl⟩⟩
  · intro msgs k hex hub
    have hmax : (msgs.map (fun m => m.id)).max? = some k := by
      rw [List.max?_eq_some_iff']
      constructor
      · obtain ⟨m, hm, rfl⟩ := hex
        exact List.mem_map.mpr ⟨m, hm, rfl⟩
      · intro b hb
        obtain ⟨m, hm, rfl⟩ := List.mem_map.mp hb
        exact hub m hm
    simp [get_next_message_id, maxMessageId, hmax]
  · intro db db' c k hnodup hkpos hub hdel
    simp only [delete_message] at hdel
    split at hdel
    · exact Except.noConfusion hdel
    · next hc =>
      simp only [Except.ok.injEq, Prod.mk.injEq] at hdel
      obtain ⟨h1, h2⟩ := hdel
      obtain ⟨pre, m, post, e1, e2, e3, e4⟩ := deleteFirst_ok rfl hc
      have hmsgs : db'.messages = pre ++ post := by
        rw [← h1]
        exact e4
      have hlt : ∀ x ∈ db'.messages, x.id < k := by
        intro x hx
        rw [hmsgs] at hx
        have hxmem : x ∈ db.messages := by
          rw [e1]
          rcases List.mem_append.mp hx with h' | h'
          · exact List.mem_append.mpr (Or.inl h')
          · exact List.mem_append.mpr (Or.inr (List.mem_cons_of_mem m h'))
        have hle : x.id ≤ k := hub x hxmem
        have hne : x.id ≠ k := by
          rcases List.mem_append.mp hx with hpre | hpost
          · exact e2 x hpre
          · have hnd := hnodup
            rw [e1] at hnd
            simp only [List.map_append, List.map_cons] at hnd
            have hmid := (List.nodup_append.mp hnd).2.1
            have hnotm : m.id ∉ post.map (fun m => m.id) :=
              (List.nodup_cons.mp hmid).1
            intro hcontra
            apply hnotm
            rw [e3, ← hcontra]
            exact List.mem_map.mpr ⟨x, hpost, rfl⟩
        omega
      cases hmax : (db'.messages.map (fun m => m.id)).max? with
      | none =>
        simp only [get_next_message_id, maxMessageId, hmax]
        omega
      | some j =>
        have hj := (List.max?_eq_some_iff'.mp hmax).1
        obtain ⟨x, hx, rfl⟩ := List.mem_map.mp hj
        have := hlt x hx
        simp only [get_next_message_id, maxMessageId, hmax]
        omega

/-- Claim C10 witness: the next-id formula of `C10_next_id_amended`
applied to the concrete store with ids {1, 5}. -/
theorem C10_next_id_amended_witness :
    get_next_message_id gapDb.messages = 5 + 1 :=
  C10_next_id_amended.1 gapDb.messages 5 (by decide) (by decide)

/-- The racy schedule: both requests run `get_next_message_id` before
either `insert_one`. -/
def raceInterleaved : List RaceOp :=
  [RaceOp.readA, RaceOp.readB, RaceOp.insertA, RaceOp.insertB]

/-- The serialized schedule: request A completes before B starts. -/
def raceSerialized : List RaceOp :=
  [RaceOp.readA, RaceOp.insertA, RaceOp.readB, RaceOp.insertB]

/-- Claim C1: id assignment is not atomic. Under the interleaved
schedule both concurrent `POST /log` requests compute the same id 1
from an empty log; writer B's `insert_one` then hits the unique index
and its request fails with no retry, leaving only one stored message.
Under the serialized schedule (A's effects observed before B starts)
the ids are the distinct, increasing 1 and 2 — so the failure is due
precisely to the unsynchronized read-max-then-insert interleaving. -/
theorem C1_concurrent_append_id_race :
    ((raceRun raceMkA raceMkB raceInit raceInterleaved).writerA.localId
        = some 1 ∧
      (raceRun raceMkA raceMkB raceInit raceInterleaved).writerB.localId
        = some 1 ∧
      (raceRun raceMkA raceMkB raceInit raceInterleaved).writerB.dupKey
        = true ∧
      (raceRun raceMkA raceMkB raceInit raceInterleaved).store.map
          (fun m => m.id) = [1]) ∧
    ((raceRun raceMkA raceMkB raceInit raceSerialized).writerA.localId
        = some 1 ∧
      (raceRun raceMkA raceMkB raceInit raceSerialized).writerB.localId
        = some 2 ∧
      (raceRun raceMkA raceMkB raceInit raceSerialized).writerB.dupKey
        = false ∧
      (raceRun raceMkA raceMkB raceInit raceSerialized).store.map
          (fun m => m.id) = [1, 2]) := by
  decide

end Dashboard
